import Mathlib

/-!
# Verification of the IoT sensor anomaly-detection pipeline

Shallow embedding of `create_visualizations.py` and of the anomaly-detection
engine it delegates to (feature extraction, standardization, isolation-forest
scoring, threshold classification).  The glue script itself only selects
feature columns, generates synthetic records, calls the library, and maps the
library's -1/+1 prediction to a 0/1 flag; the engine internals live in the
third-party library and are therefore modelled from the specification
(sections 4.1-4.5), faithful to its words.

Numbers are embedded as `ℚ` wherever the program computes with them, so that
everything evaluates on concrete inputs; the anomaly score `2 ^ (-avg / C(n))`
and the standard deviation `sqrt(var)` are genuinely irrational, so those two
quantities live in `ℝ`.
-/

namespace IsoPipeline

/-! ## Data model: synthetic records (source lines 34-48) -/

/-- One row of `detailed_data` as built in the generation loop
(source lines 40-48): the sensor tag plus six numeric metrics. -/
structure SensorRecord where
  sensor_type : String
  energy_efficiency_ratio : ℚ
  energy_consumption : ℚ
  data_size_bytes : ℚ
  transmission_duration : ℚ
  bytes_per_duration : ℚ
  performance_score : ℚ
deriving DecidableEq

/-- Model of `np.random.uniform(low, high)`: the library documents a draw from
the half-open interval `[low, high)`, i.e. `low + (high - low) * u` with the
unit draw `u` ranging over `[0, 1)`. -/
def uniformDraw (low high u : ℚ) : ℚ := low + (high - low) * u

/-- Model of `np.random.normal(base, base * 0.1)` (source line 35): `base +
base * 0.1 * z` where `z` is the standard-normal draw (unconstrained). -/
def normalDraw (base z : ℚ) : ℚ := base + base * (1 / 10) * z

/-- One iteration of the data-generation loop (source lines 34-48), with the
random draws made explicit: `z` is the normal unit draw for efficiency and
`uE`, `uS`, `uD` are the unit draws of the three uniform calls
(`energy_consumption`, `data_size`, `transmission_duration`). -/
def genRecord (sensor : String) (baseEff z uE uS uD : ℚ) : SensorRecord :=
  let efficiency := normalDraw baseEff z
  let energy_consumption := uniformDraw 50 150 uE
  let data_size := uniformDraw 100 500 uS
  let transmission_duration := uniformDraw 1 10 uD
  { sensor_type := sensor
    energy_efficiency_ratio := efficiency
    energy_consumption := energy_consumption
    data_size_bytes := data_size
    transmission_duration := transmission_duration
    bytes_per_duration := data_size / transmission_duration
    performance_score := efficiency * (data_size / transmission_duration) / energy_consumption }

/-- The four feature columns selected for ML (source lines 109-111):
`energy_efficiency_ratio`, `energy_consumption`, `bytes_per_duration`,
`performance_score`.  Note that `sensor_type`, `data_size_bytes` and
`transmission_duration` are NOT selected. -/
def featuresForMl (r : SensorRecord) : List ℚ :=
  [r.energy_efficiency_ratio, r.energy_consumption,
   r.bytes_per_duration, r.performance_score]

/-! ## Classifier / thresholder (spec 4.5, source lines 122-123) -/

/-- Modelled from the spec: `classify(score, threshold) -> bool` is
`score >= threshold`. -/
def classify (score threshold : ℚ) : Bool := threshold ≤ score

/-- Modelled from the spec: the underlying library's sign convention for
`predict` — it returns `-1` for a record it deems anomalous (score at or
above the decision cutoff, in the spec's higher-is-more-anomalous
orientation) and `+1` for a normal one. -/
def libPredict (score threshold : ℚ) : Int :=
  if classify score threshold then -1 else 1

/-- Source lines 122-123: `is_anomaly = (anomaly == -1).astype(int)`, i.e.
the -1/+1 library prediction is mapped to `1` exactly on `-1`. -/
def isAnomalyFlag (pred : Int) : ℕ := if pred = -1 then 1 else 0

/-- Modelled from the spec: sort the scores in descending order
(`deriveThreshold`, spec 4.5). -/
def sortDesc (scores : List ℚ) : List ℚ :=
  scores.mergeSort (fun a b => decide (b ≤ a))

/-- Modelled from the spec: `deriveThreshold(scores, contamination)` sorts the
scores descending and picks the score at rank
`floor(contamination * count)` (0-indexed from the top); `none` when that
rank is out of range. -/
def deriveThreshold (scores : List ℚ) (contamination : ℚ) : Option ℚ :=
  (sortDesc scores)[(⌊contamination * scores.length⌋).toNat]?

/-! ## Isolation forest (spec 4.3-4.4, library internals modelled) -/

/-- Modelled from the spec: an isolation tree.  An internal node holds a
feature index and a split value; a leaf holds the count of subsample points
that reached it (its creation depth is recovered as the traversal depth). -/
inductive IsoTree where
  | leaf (count : ℕ)
  | node (feature : ℕ) (split : ℚ) (left right : IsoTree)
deriving DecidableEq

/-- Modelled from the spec: the analytic correction term
`C(n) = 2*H(n-1) - 2*(n-1)/n` for `n > 1`, else `0`, with `H` the harmonic
number (spec 4.4). -/
def corr (n : ℕ) : ℚ :=
  if n ≤ 1 then 0 else 2 * harmonic (n - 1) - 2 * ((n : ℚ) - 1) / n

/-- Modelled from the spec: the corrected path length of a vector in a tree.
Descend left when the vector's value at the node's feature is below the
split, right otherwise; at a leaf of count `c` the length is the depth plus
`C(c)`. -/
def pathLen (v : List ℚ) : IsoTree → ℕ → ℚ
  | .leaf c, depth => (depth : ℚ) + corr c
  | .node f s l r, depth =>
      if v.getD f 0 < s then pathLen v l (depth + 1) else pathLen v r (depth + 1)

/-- Modelled from the spec: average corrected path length across the forest. -/
def avgPathLen (forest : List IsoTree) (v : List ℚ) : ℚ :=
  (forest.map (fun t => pathLen v t 0)).sum / forest.length

/-- Modelled from the spec: the anomaly score
`2 ^ (-avgPathLength / C(subsampleSize))` (spec 4.4). -/
noncomputable def anomalyScore (forest : List IsoTree) (subsampleSize : ℕ)
    (v : List ℚ) : ℝ :=
  (2 : ℝ) ^ (-(((avgPathLen forest v : ℚ) : ℝ) / ((corr subsampleSize : ℚ) : ℝ)))

/-! ## Standardizer (spec 4.2, library internals modelled) -/

/-- Mean of a list of rationals (empty list gives `0`). -/
def meanQ (l : List ℚ) : ℚ := l.sum / l.length

/-- Population variance of a list of rationals (the library's scaler uses the
population convention, `ddof = 0`). -/
def varQ (l : List ℚ) : ℚ :=
  ((l.map (fun x => (x - meanQ l) ^ 2)).sum) / l.length

/-- The `j`-th feature column of a dataset of feature vectors. -/
def colJ (data : List (List ℚ)) (j : ℕ) : List ℚ :=
  data.map (fun v => v.getD j 0)

/-- Errors of the standardizer fit (spec 7). -/
inductive FitError where
  | degenerateFeature (idx : ℕ)
  | insufficientData
deriving DecidableEq

/-- Modelled from the spec: `fit(vectors)` requires at least 2 vectors and
fails with `DegenerateFeature` when some feature has zero variance (zero
standard deviation) across the reference set; otherwise it returns the
per-feature `(mean, variance)` parameters.  The rejection policy (rather
than an epsilon floor) is the one deterministic documented choice. -/
def fitStandardizer (data : List (List ℚ)) (numFeat : ℕ) :
    Except FitError (List (ℚ × ℚ)) :=
  if data.length < 2 then .error .insufficientData
  else
    match (List.range numFeat).find? (fun j => decide (varQ (colJ data j) = 0)) with
    | some j => .error (.degenerateFeature j)
    | none => .ok ((List.range numFeat).map (fun j => (meanQ (colJ data j), varQ (colJ data j))))

/-- Mean of a list of reals (empty list gives `0`). -/
noncomputable def colMean (l : List ℝ) : ℝ := l.sum / l.length

/-- Population variance of a list of reals. -/
noncomputable def colVar (l : List ℝ) : ℝ :=
  ((l.map (fun x => (x - colMean l) ^ 2)).sum) / l.length

/-- Modelled from the spec: the per-feature standardizing transform
`x ↦ (x - mean) / std` applied pointwise to a column; pure, the parameters
`m`, `s` are plain values and are not mutated. -/
noncomputable def transformCol (m s : ℝ) (l : List ℝ) : List ℝ :=
  l.map (fun x => (x - m) / s)

/-! ## Feature extractor (spec 4.1, modelled) -/

/-- A raw metric value: either a finite number or a non-finite one
(NaN/infinity, which `ℚ` cannot represent and the extractor must reject). -/
inductive RawValue where
  | finite (q : ℚ)
  | notFinite
deriving DecidableEq

/-- A raw record: a category tag plus named raw metrics. -/
structure RawRecord where
  category : String
  metrics : List (String × RawValue)
deriving DecidableEq

/-- Errors of feature extraction (spec 7). -/
inductive ExtractError where
  | malformedRecord
deriving DecidableEq

/-- Look up a named raw metric in a record. -/
def lookupMetric (r : RawRecord) (name : String) : Option RawValue :=
  (r.metrics.find? (fun p => p.1 == name)).map (fun p => p.2)

/-- Modelled from the spec: `extract(record)` produces the feature vector in
schema order; a missing or non-finite configured metric makes it fail with
`MalformedRecord`, never substituting a default. -/
def extract (schema : List String) (r : RawRecord) : Except ExtractError (List ℚ) :=
  match schema with
  | [] => .ok []
  | n :: rest =>
      match lookupMetric r n with
      | some (.finite q) => (extract rest r).map (fun v => q :: v)
      | _ => .error .malformedRecord

/-! ## Forest fit: configuration validation and seeded construction
(spec 4.3, 6, 7, 9; library internals modelled) -/

/-- The fit configuration (spec 6). -/
structure ForestConfig where
  numTrees : ℤ
  subsampleSize : ℤ
  maxDepth : ℤ
  contamination : ℚ
deriving DecidableEq

/-- Modelled from the spec: a configuration is valid when `contamination` is
in `(0,1)` and `numTrees`, `subsampleSize`, `maxDepth` are positive. -/
def validConfig (cfg : ForestConfig) : Bool :=
  decide (0 < cfg.contamination) && decide (cfg.contamination < 1) &&
  decide (0 < cfg.numTrees) && decide (0 < cfg.subsampleSize) &&
  decide (0 < cfg.maxDepth)

/-- Errors of the forest fit configuration check (spec 7). -/
inductive ConfigError where
  | invalidConfiguration
deriving DecidableEq

/-- A deterministic pseudo-random step (a linear congruential generator),
the explicit seeded random source the spec asks for (spec 9). -/
def lcgNext (s : ℕ) : ℕ := (s * 1103515245 + 12345) % 2147483648

/-- Is a column constant (all entries equal to the first)? -/
def isConstCol (l : List ℚ) : Bool := l.all (fun x => decide (x = l.headD 0))

/-- Feature indices that are not constant within the current subsample
(spec 4.3: split features are chosen among non-constant ones). -/
def nonConstFeatures (data : List (List ℚ)) (numFeat : ℕ) : List ℕ :=
  (List.range numFeat).filter (fun f => !(isConstCol (colJ data f)))

/-- Minimum of a rational list (empty gives `0`). -/
def minOf (l : List ℚ) : ℚ := l.foldr min (l.headD 0)

/-- Maximum of a rational list (empty gives `0`). -/
def maxOf (l : List ℚ) : ℚ := l.foldr max (l.headD 0)

/-- Modelled from the spec: recursive isolation-tree construction (spec 4.3)
with the randomness drawn from an explicit LCG state.  At each node: stop
with a leaf when the subsample has at most one element, the depth budget
(`fuel`) is exhausted, or every feature is constant; otherwise pick a
non-constant feature from the random state, a split value strictly between
the column's min and max, partition into `< split` / `≥ split`, and recurse.
Returns the tree together with the advanced random state. -/
def buildTree (data : List (List ℚ)) (numFeat : ℕ) : ℕ → ℕ → IsoTree × ℕ
  | 0, rng => (.leaf data.length, rng)
  | fuel + 1, rng =>
      if data.length ≤ 1 then (.leaf data.length, rng)
      else
        let cands := nonConstFeatures data numFeat
        if cands.length = 0 then (.leaf data.length, rng)
        else
          let f := cands.getD (rng % cands.length) 0
          let col := colJ data f
          let lo := minOf col
          let hi := maxOf col
          let rng1 := lcgNext rng
          let split := lo + (hi - lo) * (((rng1 % 99 + 1 : ℕ) : ℚ) / 100)
          let lData := data.filter (fun v => decide (v.getD f 0 < split))
          let rData := data.filter (fun v => decide (¬ v.getD f 0 < split))
          let lRes := buildTree lData numFeat fuel (lcgNext rng1)
          let rRes := buildTree rData numFeat fuel lRes.2
          (.node f split lRes.1 rRes.1, rRes.2)

/-- Modelled from the spec: build `k` trees in order, threading the random
state from one tree to the next (deterministic merge order, spec 5). -/
def buildForest (data : List (List ℚ)) (numFeat maxDepth : ℕ) :
    ℕ → ℕ → List IsoTree
  | 0, _ => []
  | k + 1, rng =>
      let res := buildTree data numFeat maxDepth rng
      res.1 :: buildForest data numFeat maxDepth k res.2

/-- Modelled from the spec: `fit` validates the configuration first (fail
fast); only a valid configuration reaches tree construction, so an error
never carries a partial forest. -/
def fitForest (cfg : ForestConfig) (data : List (List ℚ)) (numFeat : ℕ)
    (seed : ℕ) : Except ConfigError (List IsoTree) :=
  if validConfig cfg then
    .ok (buildForest data numFeat cfg.maxDepth.toNat cfg.numTrees.toNat seed)
  else .error .invalidConfiguration

/-! ## The fit phase as a state machine (for determinism, spec 5, 8) -/

/-- The state of an in-progress fit: the random state, the trees built so
far, and how many remain. -/
structure FitState where
  rng : ℕ
  built : List IsoTree
  remaining : ℕ
deriving DecidableEq

/-- One step of the fit: build the next tree from the current random state,
or terminate (`none`) when no trees remain. -/
def fitStep (data : List (List ℚ)) (numFeat maxDepth : ℕ) (s : FitState) :
    Option FitState :=
  match s.remaining with
  | 0 => none
  | r + 1 =>
      let res := buildTree data numFeat maxDepth s.rng
      some ⟨res.2, s.built ++ [res.1], r⟩

/-- An execution of the fit phase: repeated `fitStep` until termination. -/
inductive FitRun (data : List (List ℚ)) (numFeat maxDepth : ℕ) :
    FitState → FitState → Prop where
  | done {s : FitState} : fitStep data numFeat maxDepth s = none →
      FitRun data numFeat maxDepth s s
  | next {s s' t : FitState} : fitStep data numFeat maxDepth s = some s' →
      FitRun data numFeat maxDepth s' t → FitRun data numFeat maxDepth s t

/-! ## Scoring a record through the whole pipeline (source lines 109-123) -/

/-- Apply fitted `(mean, std)` parameters to a feature vector, index by
index. -/
def applyStd (params : List (ℚ × ℚ)) (v : List ℚ) : List ℚ :=
  List.zipWith (fun p x => (x - p.1) / p.2) params v

/-- The anomaly score the pipeline assigns to a record: standardize its
selected ML features and score them against the forest (source lines
109-120; forest scoring modelled from spec 4.4). -/
noncomputable def recordScore (params : List (ℚ × ℚ)) (forest : List IsoTree)
    (subsampleSize : ℕ) (r : SensorRecord) : ℝ :=
  anomalyScore forest subsampleSize (applyStd params (featuresForMl r))

/-- The 0/1 anomaly flag the pipeline assigns to a record: 1 exactly when the
average path length is at or below the path-length cutoff, which (because
`2 ^ (-x / C(n))` is strictly decreasing in `x`) is the score-threshold
comparison of source lines 119-123 stated on path lengths. -/
def recordLabel (params : List (ℚ × ℚ)) (forest : List IsoTree)
    (pathCutoff : ℚ) (r : SensorRecord) : ℕ :=
  if avgPathLen forest (applyStd params (featuresForMl r)) ≤ pathCutoff then 1 else 0

/-- A fixture of 100 distinct scores sorted descending: `[99, 98, ..., 0]`. -/
def hundredScores : List ℚ :=
  ((List.range 100).reverse).map (fun n : ℕ => (n : ℚ))

/-! ## Theorems -/

/-- Claim C2: a record is labelled anomalous iff its score is at or above the
threshold; the library's `-1`/`+1` convention, mapped through
`is_anomaly = (anomaly == -1)` (source lines 122-123), agrees with
`classify(score, threshold) = score >= threshold` and is never inverted:
higher score implies anomalous. -/
theorem claim_C2 (s t : ℚ) :
    (isAnomalyFlag (libPredict s t) = 1 ↔ classify s t = true) ∧
    (classify s t = true ↔ t ≤ s) ∧
    (∀ s2, s ≤ s2 → classify s t = true → classify s2 t = true) := by
  refine ⟨?_, ?_, ?_⟩
  · cases hc : classify s t <;> simp [libPredict, isAnomalyFlag, hc]
  · simp [classify]
  · intro s2 hle h
    simp only [classify, decide_eq_true_eq] at h ⊢
    exact le_trans h hle

/-- Witness for C2 at score `1`, threshold `0`. -/
theorem claim_C2_witness :
    isAnomalyFlag (libPredict 1 0) = 1 ↔ classify 1 0 = true :=
  (claim_C2 1 0).1

/-- Counterexample to C9 as stated: with unit draw `0` (which
`np.random.uniform` produces, its interval being half-open `[low, high)`),
the generated `transmission_duration` is exactly `1`, hence NOT drawn from
the open interval `(1, 10)`. -/
theorem claim_C9_counterexample :
    (genRecord ("ECG") 1459 0 0 0 0).transmission_duration = 1 ∧
    ¬ (1 < (genRecord ("ECG") 1459 0 0 0 0).transmission_duration ∧
        (genRecord ("ECG") 1459 0 0 0 0).transmission_duration < 10) := by
  norm_num [genRecord, uniformDraw]

/-- Claim C9 (amended): the divisor `transmission_duration` is drawn from the
half-open `[1, 10)` and `energy_consumption` from `[50, 150)`; both are
strictly positive, so the divisions computing `bytes_per_duration` and
`performance_score` never divide by zero and every derived feature value is
a well-defined (finite) rational. -/
theorem claim_C9 (sensor : String) (baseEff z uE uS uD : ℚ) (r : SensorRecord)
    (hr : r = genRecord sensor baseEff z uE uS uD)
    (h1 : 0 ≤ uE) (h2 : uE < 1) (h5 : 0 ≤ uD) (h6 : uD < 1) :
    (1 ≤ r.transmission_duration ∧ r.transmission_duration < 10 ∧
      0 < r.transmission_duration) ∧
    (50 ≤ r.energy_consumption ∧ r.energy_consumption < 150 ∧
      0 < r.energy_consumption) ∧
    r.bytes_per_duration * r.transmission_duration = r.data_size_bytes ∧
    r.performance_score * r.energy_consumption =
      r.energy_efficiency_ratio * r.bytes_per_duration := by
  subst hr
  simp only [genRecord, uniformDraw, normalDraw]
  have hdur : (0 : ℚ) < 1 + (10 - 1) * uD := by nlinarith
  have hec : (0 : ℚ) < 50 + (150 - 50) * uE := by nlinarith
  refine ⟨⟨by nlinarith, by nlinarith, hdur⟩, ⟨by nlinarith, by nlinarith, hec⟩, ?_, ?_⟩
  · exact div_mul_cancel₀ _ (ne_of_gt hdur)
  · exact div_mul_cancel₀ _ (ne_of_gt hec)

/-- Witness for C9 at all-zero unit draws. -/
theorem claim_C9_witness :
    1 ≤ (genRecord ("ECG") 1459 0 0 0 0).transmission_duration ∧
    0 < (genRecord ("ECG") 1459 0 0 0 0).energy_consumption :=
  ⟨(claim_C9 ("ECG") 1459 0 0 0 0 _ rfl (by norm_num) (by norm_num)
      (by norm_num) (by norm_num)).1.1,
   (claim_C9 ("ECG") 1459 0 0 0 0 _ rfl (by norm_num) (by norm_num)
      (by norm_num) (by norm_num)).2.1.2.2⟩

/-- Claim C10: the pipeline's anomaly score and anomaly label of a record
depend only on the four selected feature columns (source lines 109-111):
two records agreeing on `energy_efficiency_ratio`, `energy_consumption`,
`bytes_per_duration` and `performance_score` get identical score and label,
regardless of `sensor_type`, `data_size_bytes` or `transmission_duration`. -/
theorem claim_C10 (params : List (ℚ × ℚ)) (forest : List IsoTree)
    (subsampleSize : ℕ) (cutoff : ℚ) (r1 r2 : SensorRecord)
    (h1 : r1.energy_efficiency_ratio = r2.energy_efficiency_ratio)
    (h2 : r1.energy_consumption = r2.energy_consumption)
    (h3 : r1.bytes_per_duration = r2.bytes_per_duration)
    (h4 : r1.performance_score = r2.performance_score) :
    recordScore params forest subsampleSize r1 =
      recordScore params forest subsampleSize r2 ∧
    recordLabel params forest cutoff r1 = recordLabel params forest cutoff r2 := by
  have hf : featuresForMl r1 = featuresForMl r2 := by
    simp [featuresForMl, h1, h2, h3, h4]
  exact ⟨by simp [recordScore, hf], by simp [recordLabel, hf]⟩

/-- Witness for C10: two records differing in sensor type, raw data size and
duration (200/2 vs 300/3) but with equal selected features. -/
theorem claim_C10_witness :
    recordScore [] [] 2 ⟨"ECG", 1400, 100, 200, 2, 100, 1400⟩ =
      recordScore [] [] 2 ⟨"BloodPressure", 1400, 100, 300, 3, 100, 1400⟩ ∧
    recordLabel [] [] 0 ⟨"ECG", 1400, 100, 200, 2, 100, 1400⟩ =
      recordLabel [] [] 0 ⟨"BloodPressure", 1400, 100, 300, 3, 100, 1400⟩ :=
  claim_C10 [] [] 2 0 _ _ rfl rfl rfl rfl

/-- Claim C7: extraction succeeds exactly when every configured metric is
present and finite; any failure is `MalformedRecord`; and on success the
output is exactly the looked-up metric values in schema order — no default
is ever substituted and no value coerced. -/
theorem claim_C7 (schema : List String) (r : RawRecord) :
    ((∃ v, extract schema r = .ok v) ↔
      ∀ name ∈ schema, ∃ q, lookupMetric r name = some (RawValue.finite q)) ∧
    (∀ e, extract schema r = .error e → e = .malformedRecord) ∧
    (∀ v, extract schema r = .ok v → v.length = schema.length ∧
      ∀ i (hi : i < schema.length) (hv : i < v.length),
        lookupMetric r (schema.get ⟨i, hi⟩) =
          some (RawValue.finite (v.get ⟨i, hv⟩))) := by
  induction schema with
  | nil =>
      refine ⟨⟨fun _ => by simp, fun _ => ⟨[], rfl⟩⟩, ?_, ?_⟩
      · intro e he; exact absurd he (by simp [extract])
      · intro v hv
        have : v = [] := by simpa [extract] using hv.symm
        subst this
        exact ⟨rfl, fun i hi _ => absurd hi (by simp)⟩
  | cons n rest ih =>
      rcases hl : lookupMetric r n with _ | w
      · refine ⟨⟨?_, ?_⟩, ?_, ?_⟩
        · rintro ⟨v, hv⟩
          simp [extract, hl] at hv
        · intro hall
          rcases hall n (by simp) with ⟨q, hq⟩
          rw [hl] at hq; exact absurd hq (by simp)
        · intro e he
          simpa [extract, hl] using he.symm
        · intro v hv
          simp [extract, hl] at hv
      · rcases w with q | _
        · refine ⟨⟨?_, ?_⟩, ?_, ?_⟩
          · rintro ⟨v, hv⟩
            intro name hname
            rcases List.mem_cons.mp hname with h | h
            · exact ⟨q, h ▸ hl⟩
            · rcases hrest : extract rest r with e | v2
              · simp only [extract, hl, hrest] at hv
                exact absurd hv (by simp [Except.map])
              · exact ih.1.mp ⟨v2, hrest⟩ name h
          · intro hall
            have hrest : ∃ v2, extract rest r = .ok v2 :=
              ih.1.mpr (fun name h => hall name (List.mem_cons_of_mem _ h))
            rcases hrest with ⟨v2, hv2⟩
            exact ⟨q :: v2, by rw [extract, hl, hv2]; rfl⟩
          · intro e he
            simp only [extract, hl] at he
            rcases hrest : extract rest r with e2 | v2
            · have he2 : e2 = e := by simpa [hrest, Except.map] using he
              exact he2 ▸ ih.2.1 e2 hrest
            · exact absurd he (by simp [hrest, Except.map])
          · intro v hv
            simp only [extract, hl] at hv
            rcases hrest : extract rest r with e2 | v2
            · exact absurd hv (by simp [hrest, Except.map])
            · have hv' : v = q :: v2 := by
                have h2 := hv.symm
                rw [hrest] at h2
                simpa [Except.map] using h2
              subst hv'
              rcases ih.2.2 v2 hrest with ⟨hlen, hidx⟩
              refine ⟨by simp [hlen], ?_⟩
              intro i hi hvi
              match i with
              | 0 => simpa using hl
              | i + 1 =>
                  have := hidx i (by simpa using hi) (by simpa using hvi)
                  simpa using this
        · refine ⟨⟨?_, ?_⟩, ?_, ?_⟩
          · rintro ⟨v, hv⟩
            simp [extract, hl] at hv
          · intro hall
            rcases hall n (by simp) with ⟨q, hq⟩
            rw [hl] at hq
            exact absurd hq (by simp)
          · intro e he
            simpa [extract, hl] using he.symm
          · intro v hv
            simp [extract, hl] at hv

/-- Witness for C7: a one-metric schema against a record carrying that metric
with finite value 3. -/
theorem claim_C7_witness :
    ∀ name ∈ (["v"] : List String), ∃ q,
      lookupMetric ⟨"ECG", [("v", RawValue.finite 3)]⟩ name =
        some (RawValue.finite q) :=
  (claim_C7 (["v"]) ⟨"ECG", [("v", RawValue.finite 3)]⟩).1.mp
    ⟨[3], by simp [extract, lookupMetric, Except.map]⟩

/-- Claim C6: on a reference set of at least 2 vectors, the standardizer's
fit fails with `DegenerateFeature` exactly when some feature's variance
(equivalently, standard deviation) is zero across the set; a reported index
really is degenerate, and a successful fit guarantees every feature has
nonzero variance — never a silent pass-through. -/
theorem claim_C6 (data : List (List ℚ)) (numFeat : ℕ) (hlen : 2 ≤ data.length) :
    ((∃ j, fitStandardizer data numFeat = .error (.degenerateFeature j)) ↔
      ∃ j < numFeat, varQ (colJ data j) = 0) ∧
    (∀ j, fitStandardizer data numFeat = .error (.degenerateFeature j) →
      j < numFeat ∧ varQ (colJ data j) = 0) ∧
    (∀ ps, fitStandardizer data numFeat = .ok ps →
      ∀ j < numFeat, varQ (colJ data j) ≠ 0) := by
  have hcond : ¬ data.length < 2 := by omega
  rcases hfind : (List.range numFeat).find?
      (fun j => decide (varQ (colJ data j) = 0)) with _ | j
  · have hnone := List.find?_eq_none.mp hfind
    refine ⟨⟨?_, ?_⟩, ?_, ?_⟩
    · rintro ⟨j, hj⟩
      simp [fitStandardizer, hcond, hfind] at hj
    · rintro ⟨j, hjlt, hjvar⟩
      exact absurd (by simpa using hjvar)
        (by simpa using hnone j (List.mem_range.mpr hjlt))
    · intro j hj
      simp [fitStandardizer, hcond, hfind] at hj
    · intro ps _ j hjlt hjvar
      exact absurd (by simpa using hjvar)
        (by simpa using hnone j (List.mem_range.mpr hjlt))
  · have hjmem := List.mem_of_find?_eq_some hfind
    have hjvar : varQ (colJ data j) = 0 := by
      simpa using List.find?_some hfind
    have hjlt : j < numFeat := List.mem_range.mp hjmem
    refine ⟨⟨fun _ => ⟨j, hjlt, hjvar⟩, ?_⟩, ?_, ?_⟩
    · intro _
      exact ⟨j, by simp [fitStandardizer, hcond, hfind]⟩
    · intro j2 hj2
      have hj2j : j2 = j := by
        have h2 := hj2.symm
        simp [fitStandardizer, hcond, hfind] at h2
        exact h2
      exact hj2j ▸ ⟨hjlt, hjvar⟩
    · intro ps hps
      simp [fitStandardizer, hcond, hfind] at hps

/-- Witness for C6: two identical one-feature vectors give a zero-variance
feature, and fit reports it. -/
theorem claim_C6_witness :
    ∃ j, fitStandardizer [[1], [1]] 1 = .error (.degenerateFeature j) :=
  (claim_C6 [[1], [1]] 1 (by decide)).1.mpr
    ⟨0, by decide, by norm_num [varQ, colJ, meanQ]⟩

/-- Claim C8: the modelled `fit` errors with `InvalidConfiguration` exactly
when the configuration is invalid; `contamination` outside `(0,1)` or
`numTrees ≤ 0` forces the error; and an error is decided by the
configuration alone, before any tree construction — the same error results
for every dataset and seed, so no partial forest is ever returned. -/
theorem claim_C8 (cfg : ForestConfig) (data : List (List ℚ))
    (numFeat seed : ℕ) :
    ((∃ e, fitForest cfg data numFeat seed = .error e) ↔
      ¬ validConfig cfg = true) ∧
    (validConfig cfg = true ↔
      (0 < cfg.contamination ∧ cfg.contamination < 1 ∧ 0 < cfg.numTrees ∧
        0 < cfg.subsampleSize ∧ 0 < cfg.maxDepth)) ∧
    ((cfg.contamination ≤ 0 ∨ 1 ≤ cfg.contamination ∨ cfg.numTrees ≤ 0) →
      fitForest cfg data numFeat seed = .error .invalidConfiguration) ∧
    (∀ e, fitForest cfg data numFeat seed = .error e →
      ∀ data2 seed2, fitForest cfg data2 numFeat seed2 = .error e) := by
  have hvc : validConfig cfg = true ↔
      (0 < cfg.contamination ∧ cfg.contamination < 1 ∧ 0 < cfg.numTrees ∧
        0 < cfg.subsampleSize ∧ 0 < cfg.maxDepth) := by
    simp [validConfig, and_assoc]
  refine ⟨?_, hvc, ?_, ?_⟩
  · constructor
    · rintro ⟨e, he⟩ hvalid
      simp [fitForest, hvalid] at he
    · intro hinvalid
      have hfalse : validConfig cfg = false := by
        cases h : validConfig cfg
        · rfl
        · exact absurd h hinvalid
      exact ⟨.invalidConfiguration, by simp [fitForest, hfalse]⟩
  · intro hbad
    have hnv : ¬ validConfig cfg = true := by
      rw [hvc]
      rintro ⟨h1, h2, h3, _, _⟩
      rcases hbad with h | h | h
      · exact absurd h1 (not_lt.mpr h)
      · exact absurd h2 (not_lt.mpr h)
      · exact absurd h3 (not_lt.mpr h)
    simp [fitForest, hnv]
  · intro e he data2 seed2
    cases e
    rcases hv : validConfig cfg with _ | _
    · simp [fitForest, hv]
    · simp [fitForest, hv] at he

/-- Witness for C8: a configuration with `numTrees = 0` is rejected for every
dataset and seed. -/
theorem claim_C8_witness :
    fitForest ⟨0, 256, 8, 1/10⟩ [] 0 0 = .error .invalidConfiguration :=
  (claim_C8 ⟨0, 256, 8, 1/10⟩ [] 0 0).2.2.1 (Or.inr (Or.inr (by norm_num)))

/-- Claim C3: for every finite sequence of scores and every contamination
rate, `deriveThreshold` sorts the scores in descending order — the sorted
output is descending and a permutation of the input — and returns the entry
at rank `floor(contamination * count)` of that descending order (0-indexed
from the top); over 100 scores with contamination `1/10` that rank is
index 10, and on an already strictly descending list of distinct scores the
selected value is the input's own index-10 entry. -/
theorem claim_C3 (scores : List ℚ) (contamination : ℚ) :
    (sortDesc scores).Pairwise (fun a b => b ≤ a) ∧
    (sortDesc scores).Perm scores ∧
    deriveThreshold scores contamination =
      (sortDesc scores)[(⌊contamination * scores.length⌋).toNat]? ∧
    (scores.length = 100 →
      deriveThreshold scores (1 / 10) = (sortDesc scores)[10]?) ∧
    (scores.Pairwise (fun a b => a > b) →
      sortDesc scores = scores ∧
      (scores.length = 100 → deriveThreshold scores (1 / 10) = scores[10]?)) := by
  have hsorted : (sortDesc scores).Pairwise (fun a b => decide (b ≤ a) = true) := by
    apply List.sorted_mergeSort
    · intro a b c hab hbc
      exact decide_eq_true (le_trans (of_decide_eq_true hbc) (of_decide_eq_true hab))
    · intro a b
      rcases le_total b a with h | h
      · simp [h]
      · simp [h]
  have hperm : (sortDesc scores).Perm scores := List.mergeSort_perm scores _
  have hrank : ∀ c : ℚ, deriveThreshold scores c =
      (sortDesc scores)[(⌊c * scores.length⌋).toNat]? := fun _ => rfl
  have h10 : scores.length = 100 →
      deriveThreshold scores (1 / 10) = (sortDesc scores)[10]? := by
    intro h100
    rw [hrank (1 / 10), h100]
    norm_num
    rfl
  refine ⟨hsorted.imp (fun h => of_decide_eq_true h), hperm, hrank contamination,
    h10, ?_⟩
  intro hs
  have heq : sortDesc scores = scores :=
    List.mergeSort_of_sorted (hs.imp (fun h => decide_eq_true (le_of_lt h)))
  exact ⟨heq, fun h100 => by rw [h10 h100, heq]⟩

/-- Witness for C3: on the descending fixture `[99, 98, ..., 0]` with
contamination `1/10` the cutoff is the index-10 entry, 89; and an unsorted
list `[1, 3, 2]` with contamination `1/2` is sorted to `[3, 2, 1]` before
rank selection, yielding the rank-1 score 2. -/
theorem claim_C3_witness :
    deriveThreshold hundredScores (1 / 10) = some 89 ∧
    deriveThreshold [1, 3, 2] (1 / 2) = some 2 := by
  constructor
  · have h := (claim_C3 hundredScores (1 / 10)).2.2.2.2
      (by
        rw [hundredScores]
        refine List.pairwise_map.mpr ?_
        refine List.pairwise_reverse.mpr ?_
        exact (List.pairwise_lt_range 100).imp (fun h => Nat.cast_lt.mpr h))
    rw [h.2 (by simp [hundredScores])]
    simp [hundredScores, List.getElem?_reverse, List.getElem?_range]
  · rw [(claim_C3 [1, 3, 2] (1 / 2)).2.2.1]
    have hanti : IsAntisymm ℚ (fun a b => b ≤ a) :=
      ⟨fun a b h1 h2 => le_antisymm h2 h1⟩
    have hs : sortDesc [1, 3, 2] = [3, 2, 1] :=
      @List.eq_of_perm_of_sorted ℚ (fun a b => b ≤ a) hanti _ _
        ((claim_C3 [1, 3, 2] (1 / 2)).2.1.trans (by decide))
        (claim_C3 [1, 3, 2] (1 / 2)).1 (by decide)
    rw [hs]
    norm_num

/-- The harmonic numbers are at least 1 from index 1 on. -/
theorem one_le_harmonic : ∀ m : ℕ, 1 ≤ m → 1 ≤ harmonic m
  | 1, _ => by norm_num [harmonic_succ, harmonic_zero]
  | m + 2, _ => by
      have ih := one_le_harmonic (m + 1) (by omega)
      rw [harmonic_succ]
      have hpos : (0 : ℚ) ≤ ((m + 1 + 1 : ℕ) : ℚ)⁻¹ := by positivity
      linarith

/-- The path-length correction term is nonnegative. -/
theorem corr_nonneg (n : ℕ) : 0 ≤ corr n := by
  unfold corr
  rcases le_or_lt n 1 with h | h
  · simp [h]
  · rw [if_neg (by omega)]
    have hh : 1 ≤ harmonic (n - 1) := one_le_harmonic (n - 1) (by omega)
    have hn : (0 : ℚ) < (n : ℚ) := by
      exact_mod_cast (by omega : 0 < n)
    have hfrac : ((n : ℚ) - 1) / n ≤ 1 := by
      rw [div_le_one hn]; linarith
    rw [mul_div_assoc]
    linarith

/-- The path-length correction term is strictly positive from 2 on. -/
theorem corr_pos (n : ℕ) (hn : 2 ≤ n) : 0 < corr n := by
  unfold corr
  rw [if_neg (by omega)]
  have hh : 1 ≤ harmonic (n - 1) := one_le_harmonic (n - 1) (by omega)
  have hnpos : (0 : ℚ) < (n : ℚ) := by
    exact_mod_cast (by omega : 0 < n)
  have hfrac : ((n : ℚ) - 1) / n < 1 := by
    rw [div_lt_one hnpos]; linarith
  rw [mul_div_assoc]
  linarith

/-- Corrected path lengths are nonnegative. -/
theorem pathLen_nonneg (v : List ℚ) : ∀ (t : IsoTree) (d : ℕ), 0 ≤ pathLen v t d
  | .leaf c, d => by
      rw [pathLen]
      have hc := corr_nonneg c
      have hd : (0 : ℚ) ≤ (d : ℚ) := by positivity
      linarith
  | .node f s l r, d => by
      rw [pathLen]
      split
      · exact pathLen_nonneg v l (d + 1)
      · exact pathLen_nonneg v r (d + 1)

/-- The average corrected path length is nonnegative. -/
theorem avgPathLen_nonneg (forest : List IsoTree) (v : List ℚ) :
    0 ≤ avgPathLen forest v := by
  unfold avgPathLen
  apply div_nonneg
  · apply List.sum_nonneg
    intro x hx
    rcases List.mem_map.mp hx with ⟨t, _, rfl⟩
    exact pathLen_nonneg v t 0
  · positivity

/-- Claim C1: for a subsample size of at least 2, the anomaly score
`2 ^ (-avgPathLength / C(n))` always lies in `(0, 1]`; it is strictly
antitone in the average path length, so higher scores mean more isolated
(more anomalous) points; an instantly isolated point (average path length
`0`) scores exactly `1`, and a deeply embedded point whose average path
length exceeds `C(n)` scores strictly below `1/2`. -/
theorem claim_C1 (forest : List IsoTree) (subsampleSize : ℕ) (v : List ℚ)
    (hn : 2 ≤ subsampleSize) :
    (0 < anomalyScore forest subsampleSize v ∧
      anomalyScore forest subsampleSize v ≤ 1) ∧
    (∀ w, avgPathLen forest v < avgPathLen forest w →
      anomalyScore forest subsampleSize w < anomalyScore forest subsampleSize v) ∧
    (avgPathLen forest v = 0 → anomalyScore forest subsampleSize v = 1) ∧
    (corr subsampleSize < avgPathLen forest v →
      anomalyScore forest subsampleSize v < 1 / 2) := by
  have hc : (0 : ℝ) < ((corr subsampleSize : ℚ) : ℝ) := by
    exact_mod_cast corr_pos subsampleSize hn
  have ha : (0 : ℝ) ≤ ((avgPathLen forest v : ℚ) : ℝ) := by
    exact_mod_cast avgPathLen_nonneg forest v
  refine ⟨⟨?_, ?_⟩, ?_, ?_, ?_⟩
  · exact Real.rpow_pos_of_pos (by norm_num) _
  · apply Real.rpow_le_one_of_one_le_of_nonpos (by norm_num)
    have hdiv : 0 ≤ ((avgPathLen forest v : ℚ) : ℝ) / ((corr subsampleSize : ℚ) : ℝ) :=
      div_nonneg ha hc.le
    linarith
  · intro w hw
    have hw2 : ((avgPathLen forest v : ℚ) : ℝ) < ((avgPathLen forest w : ℚ) : ℝ) := by
      exact_mod_cast hw
    apply (Real.rpow_lt_rpow_left_iff (by norm_num : (1 : ℝ) < 2)).mpr
    have hq : ((avgPathLen forest v : ℚ) : ℝ) / ((corr subsampleSize : ℚ) : ℝ) <
        ((avgPathLen forest w : ℚ) : ℝ) / ((corr subsampleSize : ℚ) : ℝ) := by
      gcongr
    linarith
  · intro h0
    have h0R : ((avgPathLen forest v : ℚ) : ℝ) = 0 := by exact_mod_cast h0
    simp [anomalyScore, h0R]
  · intro hlt
    have hltR : ((corr subsampleSize : ℚ) : ℝ) < ((avgPathLen forest v : ℚ) : ℝ) := by
      exact_mod_cast hlt
    have h1 : (1 : ℝ) <
        ((avgPathLen forest v : ℚ) : ℝ) / ((corr subsampleSize : ℚ) : ℝ) :=
      (one_lt_div hc).mpr hltR
    have hlt2 : anomalyScore forest subsampleSize v < (2 : ℝ) ^ (-(1 : ℝ)) := by
      apply (Real.rpow_lt_rpow_left_iff (by norm_num : (1 : ℝ) < 2)).mpr
      linarith
    have h12 : ((2 : ℝ) ^ (-(1 : ℝ)) : ℝ) = 1 / 2 := by
      rw [Real.rpow_neg_one]; norm_num
    rw [h12] at hlt2
    exact hlt2

/-- Witness for C1: a one-leaf forest with subsample size 2 and a
one-dimensional vector. -/
theorem claim_C1_witness :
    0 < anomalyScore [IsoTree.leaf 1] 2 [0] ∧
      anomalyScore [IsoTree.leaf 1] 2 [0] ≤ 1 :=
  (claim_C1 [IsoTree.leaf 1] 2 [0] (by norm_num)).1

/-- Sum of a column after the standardizing shift-and-scale. -/
theorem sum_map_sub_div (l : List ℝ) (m s : ℝ) :
    (l.map (fun x => (x - m) / s)).sum = (l.sum - l.length * m) / s := by
  induction l with
  | nil => simp
  | cons a t ih =>
      simp only [List.map_cons, List.sum_cons, ih, List.length_cons]
      rw [div_add_div_same]
      push_cast
      ring_nf

/-- Sum of squares of a shifted-and-scaled column. -/
theorem sum_map_sq_div (l : List ℝ) (m s : ℝ) :
    (l.map (fun x => ((x - m) / s) ^ 2)).sum =
      (l.map (fun x => (x - m) ^ 2)).sum / s ^ 2 := by
  induction l with
  | nil => simp
  | cons a t ih =>
      simp only [List.map_cons, List.sum_cons, ih]
      rw [div_pow, div_add_div_same]

/-- Claim C4: on a reference column of at least 2 values with positive
variance, the fitted transform computes `(x_i - mean) / std` entry by entry
(the parameters being plain immutable values), and applying it back to the
whole reference column yields mean exactly 0 and variance exactly 1 (hence
standard deviation exactly 1) in exact real arithmetic — the
floating-point-tolerance statement made exact. -/
theorem claim_C4 (l : List ℝ) (hlen : 2 ≤ l.length) (hvar : 0 < colVar l) :
    (∀ i (hi : i < l.length)
        (hj : i < (transformCol (colMean l) (Real.sqrt (colVar l)) l).length),
      (transformCol (colMean l) (Real.sqrt (colVar l)) l)[i] =
        (l[i] - colMean l) / Real.sqrt (colVar l)) ∧
    colMean (transformCol (colMean l) (Real.sqrt (colVar l)) l) = 0 ∧
    colVar (transformCol (colMean l) (Real.sqrt (colVar l)) l) = 1 ∧
    Real.sqrt (colVar (transformCol (colMean l) (Real.sqrt (colVar l)) l)) = 1 := by
  have hn : (0 : ℝ) < (l.length : ℝ) := by
    exact_mod_cast (by omega : 0 < l.length)
  have hne : (l.length : ℝ) ≠ 0 := ne_of_gt hn
  have hspos : 0 < Real.sqrt (colVar l) := Real.sqrt_pos.mpr hvar
  have hs2 : Real.sqrt (colVar l) ^ 2 = colVar l := Real.sq_sqrt hvar.le
  have hsum : l.sum = (l.length : ℝ) * colMean l := by
    rw [colMean]
    field_simp
  have htsum : (transformCol (colMean l) (Real.sqrt (colVar l)) l).sum = 0 := by
    rw [transformCol, sum_map_sub_div, ← hsum, sub_self, zero_div]
  have htlen : (transformCol (colMean l) (Real.sqrt (colVar l)) l).length = l.length := by
    simp [transformCol]
  have hmean : colMean (transformCol (colMean l) (Real.sqrt (colVar l)) l) = 0 := by
    rw [colMean, htsum, zero_div]
  have hS2 : (l.map (fun x => (x - colMean l) ^ 2)).sum = colVar l * l.length := by
    rw [colVar, div_mul_cancel₀ _ hne]
  have hvt : colVar (transformCol (colMean l) (Real.sqrt (colVar l)) l) = 1 := by
    rw [colVar, hmean, htlen]
    have hmap : ((transformCol (colMean l) (Real.sqrt (colVar l)) l).map
        (fun x => (x - 0) ^ 2)).sum =
        (l.map (fun x => ((x - colMean l) / Real.sqrt (colVar l)) ^ 2)).sum := by
      rw [transformCol, List.map_map]
      simp only [Function.comp_def, sub_zero]
    rw [hmap, sum_map_sq_div, hS2, hs2]
    field_simp
  refine ⟨?_, hmean, hvt, ?_⟩
  · intro i hi hj
    simp [transformCol]
  · rw [hvt, Real.sqrt_one]

/-- Witness for C4 on the column `[0, 2]` (mean 1, variance 1). -/
theorem claim_C4_witness :
    colMean (transformCol (colMean [(0 : ℝ), 2])
      (Real.sqrt (colVar [(0 : ℝ), 2])) [(0 : ℝ), 2]) = 0 ∧
    colVar (transformCol (colMean [(0 : ℝ), 2])
      (Real.sqrt (colVar [(0 : ℝ), 2])) [(0 : ℝ), 2]) = 1 :=
  ⟨(claim_C4 [(0 : ℝ), 2] (by norm_num) (by norm_num [colVar, colMean])).2.1,
   (claim_C4 [(0 : ℝ), 2] (by norm_num) (by norm_num [colVar, colMean])).2.2.1⟩

/-- Claim C5: the fit phase, with its randomness coming only from the seeded
state, is deterministic — two executions of the fit state machine from the
same initial state (same data, same seed, same tree count) terminate in the
same state, and therefore scoring with the two resulting forests gives
identical anomaly scores for every record; scoring itself is a pure
function of the forest and vector. -/
theorem claim_C5 (data : List (List ℚ)) (numFeat maxDepth : ℕ)
    (s t1 t2 : FitState)
    (h1 : FitRun data numFeat maxDepth s t1)
    (h2 : FitRun data numFeat maxDepth s t2) :
    t1 = t2 ∧ ∀ (n : ℕ) (v : List ℚ),
      anomalyScore t1.built n v = anomalyScore t2.built n v := by
  have heq : t1 = t2 := by
    induction h1 generalizing t2 with
    | done hs =>
        cases h2 with
        | done _ => rfl
        | next hs2 _ => rw [hs] at hs2; exact Option.noConfusion hs2
    | next hs _ ih =>
        cases h2 with
        | done hs2 => rw [hs2] at hs; exact Option.noConfusion hs
        | next hs2 h2tail =>
            rw [hs] at hs2
            cases Option.some.inj hs2
            exact ih _ h2tail
  subst heq
  exact ⟨rfl, fun _ _ => rfl⟩

/-- Witness for C5: fitting one tree on the singleton dataset `[[0]]` from
seed 42, run twice. -/
theorem claim_C5_witness :
    (⟨42, [IsoTree.leaf 1], 0⟩ : FitState) = ⟨42, [IsoTree.leaf 1], 0⟩ :=
  (claim_C5 [[0]] 1 1 ⟨42, [], 1⟩ ⟨42, [IsoTree.leaf 1], 0⟩ ⟨42, [IsoTree.leaf 1], 0⟩
    (FitRun.next rfl (FitRun.done rfl))
    (FitRun.next rfl (FitRun.done rfl))).1

end IsoPipeline
